import Mathlib

/-!
Verification of the PunchTracker core: the punch-event detector/classifier
(`utils/punch_counter.py`) and the combo-sequence matcher
(`utils/combo_detector.py`).

Modelling conventions:
* Python floats (pixel coordinates, timestamps, thresholds) are embedded as
  rationals (`ℚ`).  All comparisons and arithmetic performed by the code are
  exact on `ℚ`, and every claim under study is about control flow and order
  relations, not about floating-point rounding.
* `math.sqrt` has no exact counterpart on `ℚ`, so every function that calls
  it is parameterised by an explicit `sqrt : ℚ → ℚ` argument.  All theorems
  hold for an arbitrary `sqrt`; concrete evaluations instantiate it with a
  function that is exact on the inputs used.
* Mutable object state (`PunchCounter`) becomes an explicit state record
  threaded through the functions; `time.time()` becomes an explicit
  `current_time` argument.
* `collections.deque(maxlen=10)` becomes a list with an eviction-on-append
  operation.
-/

/-! ## Combo detector (`utils/combo_detector.py`) -/

/-- A combo pattern: named punch-type sequence with per-step maximum
inter-punch intervals (`DEFAULT_COMBOS` entries). -/
structure Combo where
  name : String
  sequence : List String
  timing : List ℚ
deriving DecidableEq

/-- The punch-type string constants of both modules. -/
def PUNCH_JAB : String := "jab"

def PUNCH_CROSS : String := "cross"

def PUNCH_HOOK : String := "hook"

def PUNCH_UPPERCUT : String := "uppercut"

/-- `ComboDetector.DEFAULT_COMBOS`, in source (insertion) order. -/
def DEFAULT_COMBOS : List Combo :=
  [ { name := "Jab-Cross", sequence := [PUNCH_JAB, PUNCH_CROSS], timing := [7/10] },
    { name := "Jab-Jab-Cross", sequence := [PUNCH_JAB, PUNCH_JAB, PUNCH_CROSS],
      timing := [1/2, 7/10] },
    { name := "Jab-Cross-Hook", sequence := [PUNCH_JAB, PUNCH_CROSS, PUNCH_HOOK],
      timing := [7/10, 7/10] },
    { name := "Hook-Cross-Hook", sequence := [PUNCH_HOOK, PUNCH_CROSS, PUNCH_HOOK],
      timing := [7/10, 7/10] } ]

/-- `ComboDetector.__init__`: the pattern library is the given list (or the
default library) sorted by descending sequence length with a stable sort,
mirroring Python's stable `sorted(..., key=lambda c: len(c['sequence']),
reverse=True)`. -/
def sortCombosByLength (combos : List Combo) : List Combo :=
  combos.mergeSort fun a b => b.sequence.length ≤ a.sequence.length

/-- The combo library held by a freshly constructed `ComboDetector`
(`predefined_combos = None` selects `DEFAULT_COMBOS`). -/
def comboDetectorCombos (predefined_combos : Option (List Combo)) : List Combo :=
  match predefined_combos with
  | none => sortCombosByLength DEFAULT_COMBOS
  | some l => sortCombosByLength l

/-- The floating-point guard used by `detect_combo`
(`epsilon = 1e-6` in the source). -/
def epsilon : ℚ := 1/1000000

/-- The punch-sequence check of `detect_combo`: each position of the
expected sequence is compared against the corresponding entry of the
trailing window (Python indexes `relevant_history[i][0]` for each
`i < len(combo_sequence)`). -/
def typesMatch (relevant_history : List (String × ℚ)) (combo_sequence : List String) : Bool :=
  (List.range combo_sequence.length).all fun i =>
    (relevant_history.getD i ("", 0)).1 == combo_sequence.getD i ""

/-- The timing check of `detect_combo`: each consecutive inter-punch gap
`relevant_history[i+1][1] - relevant_history[i][1]` must be at most
`combo_timings[i] + epsilon`. -/
def timingMatch (relevant_history : List (String × ℚ)) (combo_timings : List ℚ) : Bool :=
  (List.range combo_timings.length).all fun i =>
    decide ((relevant_history.getD (i+1) ("", 0)).2 - (relevant_history.getD i ("", 0)).2
      ≤ combo_timings.getD i 0 + epsilon)

/-- The pattern-library loop of `detect_combo`: try each combo in library
order; skip it if the history is shorter than its sequence, otherwise check
the trailing window's types and then its timing, returning the combo's name
on the first full match. -/
def detectComboAux (punch_history : List (String × ℚ)) : List Combo → Option String
  | [] => none
  | combo :: rest =>
    if punch_history.length < combo.sequence.length then
      detectComboAux punch_history rest
    else
      let relevant_history := punch_history.drop (punch_history.length - combo.sequence.length)
      if typesMatch relevant_history combo.sequence then
        if timingMatch relevant_history combo.timing then some combo.name
        else detectComboAux punch_history rest
      else detectComboAux punch_history rest

/-- `ComboDetector.detect_combo`: `None` for histories shorter than 2,
otherwise the first (hence longest, by the pre-sorted library) fully
matching combo's name. -/
def detect_combo (combos : List Combo) (punch_history : List (String × ℚ)) : Option String :=
  if punch_history.length < 2 then none
  else detectComboAux punch_history combos

/-- Whether one combo fully matches the trailing window of the history:
the conjunction of the three checks `detect_combo` performs for a single
library entry. -/
def validatesCombo (combo : Combo) (punch_history : List (String × ℚ)) : Bool :=
  !(punch_history.length < combo.sequence.length) &&
    typesMatch (punch_history.drop (punch_history.length - combo.sequence.length))
      combo.sequence &&
    timingMatch (punch_history.drop (punch_history.length - combo.sequence.length))
      combo.timing

/-! ## Punch counter (`utils/punch_counter.py`) -/

/-- The two hands processed by `detect_punches`. -/
inductive Hand where
  | left
  | right
deriving DecidableEq

/-- The codomain of `classify_punch_type`: the four punch-type constants of
`PunchCounter`. -/
inductive PunchType where
  | jab
  | cross
  | hook
  | uppercut
deriving DecidableEq

/-- The mutable state of a `PunchCounter` instance: counters, the per-hand
rolling position/timestamp histories, per-hand last-punch times, the
cooldown, detection parameters and calibration data. -/
structure PunchCounterState where
  total_count : ℕ
  jab_count : ℕ
  cross_count : ℕ
  hook_count : ℕ
  uppercut_count : ℕ
  pos_hist_left : List (Option (ℚ × ℚ))
  pos_hist_right : List (Option (ℚ × ℚ))
  ts_hist_left : List ℚ
  ts_hist_right : List ℚ
  last_punch_left : ℚ
  last_punch_right : ℚ
  punch_cooldown : ℚ
  velocity_threshold : ℚ
  direction_threshold : ℚ
  velocity_multiplier : ℚ
  direction_adjust : ℚ

/-- `PunchCounter.__init__`: zero counters, empty histories, last punch
times 0, cooldown 0.5 s, velocity threshold 50, direction threshold 0.7,
identity calibration. -/
def punchCounterInit : PunchCounterState :=
  { total_count := 0
    jab_count := 0
    cross_count := 0
    hook_count := 0
    uppercut_count := 0
    pos_hist_left := []
    pos_hist_right := []
    ts_hist_left := []
    ts_hist_right := []
    last_punch_left := 0
    last_punch_right := 0
    punch_cooldown := 1/2
    velocity_threshold := 50
    direction_threshold := 7/10
    velocity_multiplier := 1
    direction_adjust := 0 }

/-- `increase_sensitivity`: lower the velocity threshold by `step`
(default 5 at every call site), clamped below by 5. -/
def increase_sensitivity (st : PunchCounterState) (step : ℚ) : PunchCounterState :=
  { st with velocity_threshold := max 5 (st.velocity_threshold - step) }

/-- `decrease_sensitivity`: raise the velocity threshold by `step`
(default 5 at every call site). -/
def decrease_sensitivity (st : PunchCounterState) (step : ℚ) : PunchCounterState :=
  { st with velocity_threshold := st.velocity_threshold + step }

/-- `reset_counter`: zero the total and all per-type counters, leaving the
rest of the state untouched. -/
def reset_counter (st : PunchCounterState) : PunchCounterState :=
  { st with total_count := 0, jab_count := 0, cross_count := 0, hook_count := 0,
            uppercut_count := 0 }

/-- The position history of one hand's wrist
(`self.position_history["left_wrist" | "right_wrist"]`). -/
def posHist (st : PunchCounterState) : Hand → List (Option (ℚ × ℚ))
  | Hand.left => st.pos_hist_left
  | Hand.right => st.pos_hist_right

/-- The timestamp history of one hand's wrist. -/
def tsHist (st : PunchCounterState) : Hand → List ℚ
  | Hand.left => st.ts_hist_left
  | Hand.right => st.ts_hist_right

/-- `self.last_punch_time[hand]`. -/
def lastPunchTime (st : PunchCounterState) : Hand → ℚ
  | Hand.left => st.last_punch_left
  | Hand.right => st.last_punch_right

/-- Write `self.last_punch_time[hand] = t`. -/
def setLastPunchTime (st : PunchCounterState) (hand : Hand) (t : ℚ) : PunchCounterState :=
  match hand with
  | Hand.left => { st with last_punch_left := t }
  | Hand.right => { st with last_punch_right := t }

/-- `deque(maxlen=10).append`: drop the oldest entry when the buffer is
full, then append. -/
def dequeAppend {α : Type} (l : List α) (x : α) : List α :=
  (if l.length < 10 then l else l.drop 1) ++ [x]

/-- `PunchCounter._calculate_velocity`, with the calibration velocity
multiplier passed explicitly (`self.calibration_data["velocity_multiplier"]`
in the source).  Returns `(0, none)` when fewer than two samples exist, a
sample is absent, or the elapsed time is zero; otherwise the calibrated
speed and the unit displacement direction. -/
def calculate_velocity (velocity_multiplier : ℚ) (sqrt : ℚ → ℚ)
    (positions : List (Option (ℚ × ℚ))) (timestamps : List ℚ) : ℚ × Option (ℚ × ℚ) :=
  if positions.length < 2 ∨ timestamps.length < 2 then (0, none)
  else
    match positions.getD (positions.length - 2) none,
          positions.getD (positions.length - 1) none with
    | some pos1, some pos2 =>
      let time1 := timestamps.getD (timestamps.length - 2) 0
      let time2 := timestamps.getD (timestamps.length - 1) 0
      let dx := pos2.1 - pos1.1
      let dy := pos2.2 - pos1.2
      let displacement := sqrt (dx*dx + dy*dy)
      let dt := time2 - time1
      if dt = 0 then (0, none)
      else
        let velocity := displacement / dt
        let direction : Option (ℚ × ℚ) :=
          if displacement > 0 then some (dx / displacement, dy / displacement) else none
        (velocity * velocity_multiplier, direction)
    | _, _ => (0, none)

/-- `PunchCounter._is_punch_motion`, with `time.time()` passed explicitly as
`current_time`.  Returns the decision together with the (possibly updated)
state: on acceptance — and only then — `last_punch_time[hand]` is set to
`current_time`, before any classification happens. -/
def is_punch_motion (st : PunchCounterState) (velocity : ℚ) (direction : Option (ℚ × ℚ))
    (hand : Hand) (current_time : ℚ) : Bool × PunchCounterState :=
  if velocity < st.velocity_threshold then (false, st)
  else
    match direction with
    | none => (false, st)
    | some dir =>
      let forward_direction : Bool :=
        match hand with
        | Hand.left => decide (dir.1 < 0)
        | Hand.right => decide (dir.1 > 0)
      if forward_direction then
        if current_time - lastPunchTime st hand < st.punch_cooldown then (false, st)
        else (true, setLastPunchTime st hand current_time)
      else (false, st)

/-- The hand keypoints extracted by `PoseDetector.get_hand_keypoints`: an
optional `(x, y, confidence)` triple per landmark. -/
structure HandKeypoints where
  left_wrist : Option (ℚ × ℚ × ℚ)
  right_wrist : Option (ℚ × ℚ × ℚ)
  left_elbow : Option (ℚ × ℚ × ℚ)
  right_elbow : Option (ℚ × ℚ × ℚ)
  left_shoulder : Option (ℚ × ℚ × ℚ)
  right_shoulder : Option (ℚ × ℚ × ℚ)

/-- `keypoints.get(f"{hand}_wrist")`. -/
def wristOf (k : HandKeypoints) : Hand → Option (ℚ × ℚ × ℚ)
  | Hand.left => k.left_wrist
  | Hand.right => k.right_wrist

/-- `keypoints.get(f"{hand}_elbow")`. -/
def elbowOf (k : HandKeypoints) : Hand → Option (ℚ × ℚ × ℚ)
  | Hand.left => k.left_elbow
  | Hand.right => k.right_elbow

/-- `keypoints.get(f"{hand}_shoulder")`. -/
def shoulderOf (k : HandKeypoints) : Hand → Option (ℚ × ℚ × ℚ)
  | Hand.left => k.left_shoulder
  | Hand.right => k.right_shoulder

/-- `keypoints.get(opposite_shoulder_key)`: the other side's shoulder. -/
def oppositeShoulderOf (k : HandKeypoints) : Hand → Option (ℚ × ℚ × ℚ)
  | Hand.left => k.right_shoulder
  | Hand.right => k.left_shoulder

/-- `PunchCounter._classify_punch_type`.  With any of the four required
keypoints absent, the per-hand fallback (right → cross, left → jab);
otherwise the ordered uppercut / hook / cross / jab decision tree over
wrist-above-elbow, wrist-outside-shoulder and the arm-extension ratio. -/
def classify_punch_type (sqrt : ℚ → ℚ) (keypoints : HandKeypoints) (hand : Hand)
    (_velocity : ℚ) : PunchType :=
  match wristOf keypoints hand, elbowOf keypoints hand, shoulderOf keypoints hand,
        oppositeShoulderOf keypoints hand with
  | some wrist, some elbow, some shoulder, some _opposite =>
    let wrist_above_elbow : Bool := decide (wrist.2.1 < elbow.2.1)
    let wrist_outside_shoulder : Bool :=
      match hand with
      | Hand.left => decide (wrist.1 < shoulder.1)
      | Hand.right => decide (wrist.1 > shoulder.1)
    let wrist_to_shoulder_dist := sqrt ((wrist.1 - shoulder.1)^2 + (wrist.2.1 - shoulder.2.1)^2)
    let elbow_to_shoulder_dist := sqrt ((elbow.1 - shoulder.1)^2 + (elbow.2.1 - shoulder.2.1)^2)
    let wrist_to_elbow_dist := sqrt ((wrist.1 - elbow.1)^2 + (wrist.2.1 - elbow.2.1)^2)
    let arm_length := elbow_to_shoulder_dist + wrist_to_elbow_dist
    let arm_extension_ratio := if arm_length > 0 then wrist_to_shoulder_dist / arm_length else 0
    let is_extended : Bool := decide (arm_extension_ratio > 4/5)
    if wrist_above_elbow && is_extended then PunchType.uppercut
    else if wrist_outside_shoulder && !is_extended then PunchType.hook
    else if (hand == Hand.right) && is_extended then PunchType.cross
    else PunchType.jab
  | _, _, _, _ =>
    match hand with
    | Hand.right => PunchType.cross
    | Hand.left => PunchType.jab

/-- One raw pose-detector keypoint row `(index, optional pixel coordinates,
confidence)`; `detect_pose` emits `(i, None, None, 0.0)` for low-confidence
landmarks, modelled by a `none` coordinate pair. -/
def KeypointRow : Type := ℕ × Option (ℚ × ℚ) × ℚ

/-- Dictionary lookup `keypoint_dict[idx]` built by `get_hand_keypoints`
(`{kp[0]: (kp[1], kp[2], kp[3]) for kp in keypoints}`: the last row with a
given index wins, as for a Python dict comprehension). -/
def lookupKeypoint (keypoints : List KeypointRow) (idx : ℕ) : Option (Option (ℚ × ℚ) × ℚ) :=
  ((keypoints.filter fun kp => kp.1 == idx).getLast?).map Prod.snd

/-- One entry of the dictionary returned by `get_hand_keypoints`: present
exactly when the index occurs and its coordinates are not `None`. -/
def pickKeypoint (keypoints : List KeypointRow) (idx : ℕ) : Option (ℚ × ℚ × ℚ) :=
  match lookupKeypoint keypoints idx with
  | some (some (x, y), c) => some (x, y, c)
  | _ => none

/-- `PoseDetector.get_hand_keypoints`, using the MoveNet landmark indices
(left shoulder 5, right shoulder 6, left elbow 7, right elbow 8, left
wrist 9, right wrist 10). -/
def get_hand_keypoints (keypoints : List KeypointRow) : HandKeypoints :=
  { left_wrist := pickKeypoint keypoints 9
    right_wrist := pickKeypoint keypoints 10
    left_elbow := pickKeypoint keypoints 7
    right_elbow := pickKeypoint keypoints 8
    left_shoulder := pickKeypoint keypoints 5
    right_shoulder := pickKeypoint keypoints 6 }

/-- The history-update loop at the top of `detect_punches`: for each wrist
with a present keypoint, append its position and the current timestamp to
that hand's rolling histories. -/
def updatePositionHistories (st : PunchCounterState) (hand_keypoints : HandKeypoints)
    (current_time : ℚ) : PunchCounterState :=
  let st1 :=
    match hand_keypoints.left_wrist with
    | some kp =>
      { st with pos_hist_left := dequeAppend st.pos_hist_left (some (kp.1, kp.2.1)),
                ts_hist_left := dequeAppend st.ts_hist_left current_time }
    | none => st
  match hand_keypoints.right_wrist with
  | some kp =>
    { st1 with pos_hist_right := dequeAppend st1.pos_hist_right (some (kp.1, kp.2.1)),
               ts_hist_right := dequeAppend st1.ts_hist_right current_time }
  | none => st1

/-- The counter update on a successful classification:
`self.punch_counts[punch_type] += 1` and `self.total_count += 1`. -/
def incrementCounters (st : PunchCounterState) : PunchType → PunchCounterState
  | PunchType.jab => { st with jab_count := st.jab_count + 1, total_count := st.total_count + 1 }
  | PunchType.cross =>
    { st with cross_count := st.cross_count + 1, total_count := st.total_count + 1 }
  | PunchType.hook => { st with hook_count := st.hook_count + 1, total_count := st.total_count + 1 }
  | PunchType.uppercut =>
    { st with uppercut_count := st.uppercut_count + 1, total_count := st.total_count + 1 }

/-- `self.position_history[wrist_key][-1]`: the last stored wrist position,
used as the detected punch's coordinates. -/
def wristCoords (st : PunchCounterState) (hand : Hand) : Option (ℚ × ℚ) :=
  (posHist st hand).getD ((posHist st hand).length - 1) none

/-- The per-hand body of the detection loop of `detect_punches`: compute
velocity and direction from the hand's histories, run the punch gate
(which on acceptance stamps `last_punch_time`), and only then classify and
count, yielding at most one punch event for this hand. -/
def processHand (sqrt : ℚ → ℚ) (st : PunchCounterState) (hand_keypoints : HandKeypoints)
    (hand : Hand) (current_time : ℚ) :
    PunchCounterState × Option (PunchType × Option (ℚ × ℚ)) :=
  let vd := calculate_velocity st.velocity_multiplier sqrt (posHist st hand) (tsHist st hand)
  let r := is_punch_motion st vd.1 vd.2 hand current_time
  if r.1 then
    let punch_type := classify_punch_type sqrt hand_keypoints hand vd.1
    let coords := wristCoords r.2 hand
    (incrementCounters r.2 punch_type, some (punch_type, coords))
  else (r.2, none)

/-- `PunchCounter.detect_punches`, split by hand: extract the hand
keypoints, update the rolling histories, then process the left hand and the
right hand in order, returning the final state and the optional punch event
of each hand. -/
def detectPunchesHands (sqrt : ℚ → ℚ) (st : PunchCounterState)
    (keypoints_list : List KeypointRow) (current_time : ℚ) :
    PunchCounterState ×
      (Option (PunchType × Option (ℚ × ℚ)) × Option (PunchType × Option (ℚ × ℚ))) :=
  let hand_keypoints := get_hand_keypoints keypoints_list
  let st0 := updatePositionHistories st hand_keypoints current_time
  let rl := processHand sqrt st0 hand_keypoints Hand.left current_time
  let rr := processHand sqrt rl.1 hand_keypoints Hand.right current_time
  (rr.1, (rl.2, rr.2))

/-- `PunchCounter.detect_punches`: the final state together with the list of
detected punches (left hand's event first, then right hand's). -/
def detect_punches (sqrt : ℚ → ℚ) (st : PunchCounterState)
    (keypoints_list : List KeypointRow) (current_time : ℚ) :
    PunchCounterState × List (PunchType × Option (ℚ × ℚ)) :=
  let r := detectPunchesHands sqrt st keypoints_list current_time
  (r.1, r.2.1.toList ++ r.2.2.toList)

/-- One observation frame: a raw keypoint list and the frame time. -/
def Frame : Type := List KeypointRow × ℚ

/-- Run `detect_punches` over a sequence of frames, collecting each frame's
per-hand punch events. -/
def runFramesEvents (sqrt : ℚ → ℚ) (st : PunchCounterState) :
    List Frame → List (Option (PunchType × Option (ℚ × ℚ)) × Option (PunchType × Option (ℚ × ℚ)))
  | [] => []
  | (kps, t) :: rest =>
    let r := detectPunchesHands sqrt st kps t
    r.2 :: runFramesEvents sqrt r.1 rest

/-- Project one frame's event pair onto a hand. -/
def handEvt (p : Option (PunchType × Option (ℚ × ℚ)) × Option (PunchType × Option (ℚ × ℚ)))
    (hand : Hand) : Option (PunchType × Option (ℚ × ℚ)) :=
  match hand with
  | Hand.left => p.1
  | Hand.right => p.2

/-- A runtime sensitivity adjustment: one call to `increase_sensitivity` or
`decrease_sensitivity` with its `step` argument. -/
inductive SensitivityOp where
  | inc (step : ℚ)
  | dec (step : ℚ)

/-- The `step` argument of a sensitivity adjustment. -/
def SensitivityOp.stepOf : SensitivityOp → ℚ
  | SensitivityOp.inc s => s
  | SensitivityOp.dec s => s

/-- Apply one sensitivity adjustment to the state. -/
def applySensitivityOp (st : PunchCounterState) : SensitivityOp → PunchCounterState
  | SensitivityOp.inc step => increase_sensitivity st step
  | SensitivityOp.dec step => decrease_sensitivity st step

/-- Apply a sequence of sensitivity adjustments. -/
def runSensitivityOps (st : PunchCounterState) (ops : List SensitivityOp) : PunchCounterState :=
  ops.foldl applySensitivityOp st

/-- One externally triggered counter-relevant operation: a `detect_punches`
call on a frame, or a `reset_counter` call. -/
inductive CounterOp where
  | detect (keypoints_list : List KeypointRow) (current_time : ℚ)
  | reset

/-- Apply one counter-relevant operation to the state. -/
def applyCounterOp (sqrt : ℚ → ℚ) (st : PunchCounterState) : CounterOp → PunchCounterState
  | CounterOp.detect kps t => (detect_punches sqrt st kps t).1
  | CounterOp.reset => reset_counter st

/-- Apply a sequence of counter-relevant operations. -/
def runCounterOps (sqrt : ℚ → ℚ) (st : PunchCounterState) (ops : List CounterOp) :
    PunchCounterState :=
  ops.foldl (applyCounterOp sqrt) st

/-- The counter coherence invariant: the total equals the sum of the four
per-type counters. -/
def counterInvariant (st : PunchCounterState) : Prop :=
  st.total_count = st.jab_count + st.cross_count + st.hook_count + st.uppercut_count

/-- The concrete punch-event history of claim C4: jab at t=0.0, jab at
t=0.7, cross at t=1.0. -/
def c4History : List (String × ℚ) := [("jab", 0), ("jab", 7/10), ("cross", 1)]

/-- The spec's step-4 decision tree, written from the spec's own words
(section 4.1): wrist-above-elbow with extension ratio > 0.8 gives uppercut,
else wrist-outside-shoulder with ratio at most 0.8 gives hook, else a right
hand with ratio > 0.8 gives cross, else jab; the ratio is clamped to 0 when
its denominator is 0.  Stated separately from `classify_punch_type` so the
source classifier can be proved to refine it. -/
def specClassification (sqrt : ℚ → ℚ) (hand : Hand) (wrist elbow shoulder : ℚ × ℚ × ℚ) :
    PunchType :=
  let wrist_above_elbow : Bool := decide (wrist.2.1 < elbow.2.1)
  let wrist_outside_shoulder : Bool :=
    match hand with
    | Hand.left => decide (wrist.1 < shoulder.1)
    | Hand.right => decide (shoulder.1 < wrist.1)
  let denom := sqrt ((elbow.1 - shoulder.1)^2 + (elbow.2.1 - shoulder.2.1)^2)
    + sqrt ((wrist.1 - elbow.1)^2 + (wrist.2.1 - elbow.2.1)^2)
  let ratio : ℚ :=
    if denom = 0 then 0
    else sqrt ((wrist.1 - shoulder.1)^2 + (wrist.2.1 - shoulder.2.1)^2) / denom
  let extended : Bool := decide (ratio > 4/5)
  if wrist_above_elbow && extended then PunchType.uppercut
  else if wrist_outside_shoulder && !extended then PunchType.hook
  else if (hand == Hand.right) && extended then PunchType.cross
  else PunchType.jab


/-- A nonnegative stand-in square root used to instantiate concrete
evaluations (exact on the inputs the witnesses use). -/
def sqrtClamp (q : ℚ) : ℚ := if q ≤ 0 then 0 else q


/-- A keypoint set with all four right-hand classification keypoints
present, arranged as an extended straight right punch. -/
def c6Present : HandKeypoints :=
  { left_wrist := none
    right_wrist := some (11/10, 0, 1)
    left_elbow := none
    right_elbow := some (1/2, 0, 1)
    left_shoulder := some (-1/5, 0, 1)
    right_shoulder := some (0, 0, 1) }

/-- A keypoint set with every landmark absent. -/
def c6Missing : HandKeypoints :=
  { left_wrist := none
    right_wrist := none
    left_elbow := none
    right_elbow := none
    left_shoulder := none
    right_shoulder := none }

/-- Frames and intermediate states for the concrete `detect_punches` run of
claim C1: frames showing the right wrist at the origin at time 1, then at
x = 60 at time 2 — a qualifying right-hand punch motion. -/
def c1Frame1 : List KeypointRow := [(10, some (0, 0), 1)]

def c1Frame2 : List KeypointRow := [(10, some (60, 0), 1)]

def c1State1 : PunchCounterState :=
  { total_count := 0
    jab_count := 0
    cross_count := 0
    hook_count := 0
    uppercut_count := 0
    pos_hist_left := []
    pos_hist_right := [some (0, 0)]
    ts_hist_left := []
    ts_hist_right := [1]
    last_punch_left := 0
    last_punch_right := 0
    punch_cooldown := 1/2
    velocity_threshold := 50
    direction_threshold := 7/10
    velocity_multiplier := 1
    direction_adjust := 0 }

def c1State2 : PunchCounterState :=
  { total_count := 1
    jab_count := 0
    cross_count := 1
    hook_count := 0
    uppercut_count := 0
    pos_hist_left := []
    pos_hist_right := [some (0, 0), some (60, 0)]
    ts_hist_left := []
    ts_hist_right := [1, 2]
    last_punch_left := 0
    last_punch_right := 2
    punch_cooldown := 1/2
    velocity_threshold := 50
    direction_threshold := 7/10
    velocity_multiplier := 1
    direction_adjust := 0 }

def c1State1b : PunchCounterState :=
  { total_count := 0
    jab_count := 0
    cross_count := 0
    hook_count := 0
    uppercut_count := 0
    pos_hist_left := []
    pos_hist_right := [some (0, 0), some (60, 0)]
    ts_hist_left := []
    ts_hist_right := [1, 2]
    last_punch_left := 0
    last_punch_right := 0
    punch_cooldown := 1/2
    velocity_threshold := 50
    direction_threshold := 7/10
    velocity_multiplier := 1
    direction_adjust := 0 }

def c1State1c : PunchCounterState :=
  { total_count := 0
    jab_count := 0
    cross_count := 0
    hook_count := 0
    uppercut_count := 0
    pos_hist_left := []
    pos_hist_right := [some (0, 0), some (60, 0)]
    ts_hist_left := []
    ts_hist_right := [1, 2]
    last_punch_left := 0
    last_punch_right := 2
    punch_cooldown := 1/2
    velocity_threshold := 50
    direction_threshold := 7/10
    velocity_multiplier := 1
    direction_adjust := 0 }

def c1Keypoints2 : HandKeypoints :=
  { left_wrist := none
    right_wrist := some (60, 0, 1)
    left_elbow := none
    right_elbow := none
    left_shoulder := none
    right_shoulder := none }


/-! ## Helper lemmas: combo matcher -/

/-- The library loop returns the name of the first fully matching combo. -/
theorem detectComboAux_eq_find (punch_history : List (String × ℚ)) (combos : List Combo) :
    detectComboAux punch_history combos =
      (combos.find? fun c => validatesCombo c punch_history).map Combo.name := by
  induction combos with
  | nil => rfl
  | cons combo rest ih =>
    by_cases h1 : punch_history.length < combo.sequence.length
    · have hv : validatesCombo combo punch_history = false := by
        simp [validatesCombo, h1]
      simp [detectComboAux, h1, List.find?, hv, ih]
    · by_cases h2 : typesMatch
        (punch_history.drop (punch_history.length - combo.sequence.length)) combo.sequence = true
      · by_cases h3 : timingMatch
          (punch_history.drop (punch_history.length - combo.sequence.length)) combo.timing = true
        · have hv : validatesCombo combo punch_history = true := by
            simp [validatesCombo, h1, h2, h3]
          simp [detectComboAux, h1, h2, h3, List.find?, hv]
        · have h3f : timingMatch
              (punch_history.drop (punch_history.length - combo.sequence.length)) combo.timing
              = false := by
            simpa using h3
          have hv : validatesCombo combo punch_history = false := by
            simp [validatesCombo, h1, h2, h3f]
          simp [detectComboAux, h1, h2, h3f, List.find?, hv, ih]
      · have h2f : typesMatch
            (punch_history.drop (punch_history.length - combo.sequence.length)) combo.sequence
            = false := by
          simpa using h2
        have hv : validatesCombo combo punch_history = false := by
          simp [validatesCombo, h1, h2f]
        simp [detectComboAux, h1, h2f, List.find?, hv, ih]

/-- In a pairwise-ordered list, `find?` returns an element that is related
to (or equal to) every other element satisfying the predicate. -/
theorem find_first_of_pairwise {α : Type} {r : α → α → Prop} {p : α → Bool} {l : List α}
    (hp : l.Pairwise r) {c x : α} (hf : l.find? p = some c) (hx : x ∈ l) (hpx : p x = true) :
    c = x ∨ r c x := by
  induction l with
  | nil => cases hx
  | cons a t ih =>
    rcases List.pairwise_cons.mp hp with ⟨ha, ht⟩
    by_cases hpa : p a = true
    · rw [List.find?_cons_of_pos _ hpa] at hf
      cases hf
      rcases List.mem_cons.mp hx with rfl | hxt
      · exact Or.inl rfl
      · exact Or.inr (ha x hxt)
    · rw [List.find?_cons_of_neg _ (by simpa using hpa)] at hf
      rcases List.mem_cons.mp hx with rfl | hxt
      · exact absurd hpx hpa
      · exact ih ht hf hxt

/-- The sorted pattern library is pairwise descending in sequence length. -/
theorem sortCombos_pairwise (combos : List Combo) :
    (sortCombosByLength combos).Pairwise
      fun a b => b.sequence.length ≤ a.sequence.length := by
  have h := @List.sorted_mergeSort Combo
    (fun a b : Combo => decide (b.sequence.length ≤ a.sequence.length))
    (fun a b c hab hbc => by
      simp only [decide_eq_true_eq] at *
      exact le_trans hbc hab)
    (fun a b => by
      simp only [Bool.or_eq_true, decide_eq_true_eq]
      exact le_total b.sequence.length a.sequence.length)
    combos
  simpa [sortCombosByLength] using h

/-- The timing check accepts exactly when every consecutive gap is within
its constraint plus the tolerance. -/
theorem timingMatch_iff (relevant_history : List (String × ℚ)) (combo_timings : List ℚ) :
    timingMatch relevant_history combo_timings = true ↔
      ∀ i, i < combo_timings.length →
        (relevant_history.getD (i+1) ("", 0)).2 - (relevant_history.getD i ("", 0)).2
          ≤ combo_timings.getD i 0 + epsilon := by
  simp [timingMatch, List.all_eq_true, List.mem_range]

/-! ## Claim theorems: combo matcher -/

/-- C2: for every punch-event history on which two different library
patterns both fully validate (length, trailing-window types, and all timing
constraints), `detect_combo` over the library sorted by
`ComboDetector.__init__` returns the name of a validating pattern at least
as long as the longer of the two — hence strictly longer than the shorter
one, which is never returned. -/
theorem detect_combo_longest_wins (lib0 : List Combo) (punch_history : List (String × ℚ))
    (c1 c2 : Combo)
    (hlen2 : 2 ≤ punch_history.length)
    (hm1 : c1 ∈ lib0) (hm2 : c2 ∈ lib0)
    (hv1 : validatesCombo c1 punch_history = true)
    (hv2 : validatesCombo c2 punch_history = true)
    (hshorter : c2.sequence.length < c1.sequence.length) :
    ∃ c, c ∈ lib0 ∧ validatesCombo c punch_history = true ∧
      c1.sequence.length ≤ c.sequence.length ∧
      c2.sequence.length < c.sequence.length ∧
      detect_combo (comboDetectorCombos (some lib0)) punch_history = some c.name := by
  have hm1s : c1 ∈ sortCombosByLength lib0 := by
    simpa [sortCombosByLength, List.mem_mergeSort] using hm1
  have hsome : ((sortCombosByLength lib0).find? fun c => validatesCombo c punch_history).isSome := by
    rw [List.find?_isSome]
    exact ⟨c1, hm1s, hv1⟩
  obtain ⟨c, hc⟩ := Option.isSome_iff_exists.mp hsome
  refine ⟨c, ?_, ?_, ?_, ?_, ?_⟩
  · have := List.mem_of_find?_eq_some hc
    simpa [sortCombosByLength, List.mem_mergeSort] using this
  · have hpc := List.find?_some hc
    simpa using hpc
  · rcases find_first_of_pairwise (sortCombos_pairwise lib0) hc hm1s hv1 with rfl | hle
    · exact le_refl _
    · exact hle
  · have h1c : c1.sequence.length ≤ c.sequence.length := by
      rcases find_first_of_pairwise (sortCombos_pairwise lib0) hc hm1s hv1 with rfl | hle
      · exact le_refl _
      · exact hle
    exact lt_of_lt_of_le hshorter h1c
  · have hnot : ¬ punch_history.length < 2 := not_lt.mpr hlen2
    rw [detect_combo]
    simp only [comboDetectorCombos, hnot, if_false]
    rw [detectComboAux_eq_find, hc]
    rfl

/-- C2 witness: on the history jab@0, jab@0.4, cross@0.8 both
"Jab-Jab-Cross" and "Jab-Cross" of the default library validate, and the
longer "Jab-Jab-Cross" is returned. -/
theorem detect_combo_longest_wins_witness :
    ∃ c, c ∈ DEFAULT_COMBOS ∧
      validatesCombo c [("jab", 0), ("jab", 2/5), ("cross", 4/5)] = true ∧
      (DEFAULT_COMBOS.getD 1 ⟨"", [], []⟩).sequence.length ≤ c.sequence.length ∧
      (DEFAULT_COMBOS.getD 0 ⟨"", [], []⟩).sequence.length < c.sequence.length ∧
      detect_combo (comboDetectorCombos (some DEFAULT_COMBOS))
        [("jab", 0), ("jab", 2/5), ("cross", 4/5)] = some c.name :=
  detect_combo_longest_wins DEFAULT_COMBOS [("jab", 0), ("jab", 2/5), ("cross", 4/5)]
    (DEFAULT_COMBOS.getD 1 ⟨"", [], []⟩) (DEFAULT_COMBOS.getD 0 ⟨"", [], []⟩)
    (by norm_num)
    (by simp [DEFAULT_COMBOS])
    (by simp [DEFAULT_COMBOS])
    (by norm_num [validatesCombo, typesMatch, timingMatch, epsilon, DEFAULT_COMBOS,
      PUNCH_JAB, PUNCH_CROSS, List.range_succ])
    (by norm_num [validatesCombo, typesMatch, timingMatch, epsilon, DEFAULT_COMBOS,
      PUNCH_JAB, PUNCH_CROSS, List.range_succ])
    (by simp [DEFAULT_COMBOS])

/-- C3: for a pattern whose trailing-window types all match (and which fits
in the history), `detect_combo` accepts exactly when every consecutive gap
is at most the pattern's corresponding maximum-interval constraint plus the
fixed tolerance `epsilon = 1e-6`; a gap equal to the constraint matches,
a gap of 0.701 against 0.7 does not (see the witness). -/
theorem detect_combo_timing_rule (c : Combo) (punch_history : List (String × ℚ))
    (hlen2 : 2 ≤ punch_history.length)
    (hfits : c.sequence.length ≤ punch_history.length)
    (htypes : typesMatch (punch_history.drop (punch_history.length - c.sequence.length))
      c.sequence = true) :
    detect_combo [c] punch_history = some c.name ↔
      ∀ i, i < c.timing.length →
        ((punch_history.drop (punch_history.length - c.sequence.length)).getD (i+1) ("", 0)).2 -
          ((punch_history.drop (punch_history.length - c.sequence.length)).getD i ("", 0)).2
          ≤ c.timing.getD i 0 + epsilon := by
  have hnot2 : ¬ punch_history.length < 2 := not_lt.mpr hlen2
  have hnotL : ¬ punch_history.length < c.sequence.length := not_lt.mpr hfits
  rw [detect_combo, if_neg hnot2, ← timingMatch_iff]
  constructor
  · intro h
    by_cases ht : timingMatch
        (punch_history.drop (punch_history.length - c.sequence.length)) c.timing = true
    · exact ht
    · exfalso
      have htf : timingMatch
          (punch_history.drop (punch_history.length - c.sequence.length)) c.timing = false := by
        simpa using ht
      rw [detectComboAux] at h
      simp [hnotL, htypes, htf, detectComboAux] at h
  · intro ht
    rw [detectComboAux]
    simp [hnotL, htypes, ht]

/-- C3 witness: against the "Jab-Cross" pattern with constraint 0.7, the
gap of exactly 0.7 (jab@0, cross@0.7) matches, and the gap 0.701 does
not. -/
theorem detect_combo_timing_rule_witness :
    detect_combo [⟨"Jab-Cross", ["jab", "cross"], [7/10]⟩] [("jab", 0), ("cross", 7/10)]
        = some "Jab-Cross" ∧
      detect_combo [⟨"Jab-Cross", ["jab", "cross"], [7/10]⟩] [("jab", 0), ("cross", 701/1000)]
        = none := by
  constructor
  · refine (detect_combo_timing_rule ⟨"Jab-Cross", ["jab", "cross"], [7/10]⟩
      [("jab", 0), ("cross", 7/10)]
      (by norm_num) (by norm_num) (by simp [typesMatch, List.range_succ])).mpr ?_
    intro i hi
    have hi0 : i = 0 := Nat.lt_one_iff.mp (by simpa using hi)
    subst hi0
    norm_num [epsilon]
  · norm_num [detect_combo, detectComboAux, typesMatch, timingMatch, epsilon, List.range_succ]

/-- C4: a longer pattern failing its timing does not disqualify a shorter
pattern over the same trailing punches.  On the history jab@0.0, jab@0.7,
cross@1.0, the "Jab-Jab-Cross" types all match but its timing fails (first
gap 0.7 > 0.5), and `detect_combo` over the default library returns
"Jab-Cross" from the trailing pair (gap 0.3 ≤ 0.7). -/
theorem detect_combo_independent_windows :
    typesMatch c4History [PUNCH_JAB, PUNCH_JAB, PUNCH_CROSS] = true ∧
      timingMatch c4History [1/2, 7/10] = false ∧
      detect_combo (comboDetectorCombos none) c4History = some "Jab-Cross" := by
  refine ⟨?_, ?_, ?_⟩
  · simp [typesMatch, c4History, PUNCH_JAB, PUNCH_CROSS, List.range_succ]
  · norm_num [timingMatch, c4History, epsilon, List.range_succ]
  · norm_num [detect_combo, comboDetectorCombos, sortCombosByLength, DEFAULT_COMBOS,
      List.mergeSort, detectComboAux, typesMatch, timingMatch, epsilon, c4History,
      PUNCH_JAB, PUNCH_CROSS, PUNCH_HOOK, List.range_succ]
    decide

/-- C9: for every punch-event history with fewer than 2 entries,
`detect_combo` returns `none` whatever the pattern library contains. -/
theorem detect_combo_short_history_none (combos : List Combo)
    (punch_history : List (String × ℚ)) (h : punch_history.length < 2) :
    detect_combo combos punch_history = none := by
  simp [detect_combo, h]

/-- C9 witness: the empty history yields no combo against the default
library. -/
theorem detect_combo_short_history_none_witness :
    detect_combo (comboDetectorCombos none) [] = none :=
  detect_combo_short_history_none (comboDetectorCombos none) [] (by norm_num)

/-! ## Helper lemmas: punch counter -/

theorem is_punch_motion_accept {st : PunchCounterState} {v : ℚ} {d : Option (ℚ × ℚ)}
    {hand : Hand} {t : ℚ} {st' : PunchCounterState}
    (h : is_punch_motion st v d hand t = (true, st')) :
    st' = setLastPunchTime st hand t := by
  unfold is_punch_motion at h
  split at h
  · simp at h
  · rename_i dir
    cases d with
    | none => simp at h
    | some dir =>
      simp only at h
      split at h
      · split at h
        · simp at h
        · simp at h
          exact h.symm
      · simp at h

theorem lastPunchTime_set_same (st : PunchCounterState) (hand : Hand) (t : ℚ) :
    lastPunchTime (setLastPunchTime st hand t) hand = t := by
  cases hand <;> rfl

theorem lastPunchTime_set_other (st : PunchCounterState) {hand hand' : Hand} (t : ℚ)
    (h : hand ≠ hand') : lastPunchTime (setLastPunchTime st hand' t) hand = lastPunchTime st hand := by
  cases hand <;> cases hand' <;> simp_all [setLastPunchTime, lastPunchTime]

theorem cooldown_set (st : PunchCounterState) (hand : Hand) (t : ℚ) :
    (setLastPunchTime st hand t).punch_cooldown = st.punch_cooldown := by
  cases hand <;> rfl

-- blocked: same hand inside cooldown gives false and unchanged state
theorem is_punch_motion_blocked (st : PunchCounterState) (v : ℚ) (d : Option (ℚ × ℚ))
    (hand : Hand) (t : ℚ) (hcool : t - lastPunchTime st hand < st.punch_cooldown) :
    is_punch_motion st v d hand t = (false, st) := by
  unfold is_punch_motion
  split
  · rfl
  · cases d with
    | none => rfl
    | some dir => simp [hcool]

theorem updateHistories_fields (st : PunchCounterState) (hk : HandKeypoints) (t : ℚ) :
    (updatePositionHistories st hk t).last_punch_left = st.last_punch_left ∧
    (updatePositionHistories st hk t).last_punch_right = st.last_punch_right ∧
    (updatePositionHistories st hk t).punch_cooldown = st.punch_cooldown ∧
    (updatePositionHistories st hk t).velocity_threshold = st.velocity_threshold ∧
    (updatePositionHistories st hk t).velocity_multiplier = st.velocity_multiplier := by
  unfold updatePositionHistories
  cases hk.left_wrist <;> cases hk.right_wrist <;> simp

theorem updateHistories_lastPunchTime (st : PunchCounterState) (hk : HandKeypoints) (t : ℚ)
    (hand : Hand) :
    lastPunchTime (updatePositionHistories st hk t) hand = lastPunchTime st hand := by
  cases hand <;>
    simp [lastPunchTime, (updateHistories_fields st hk t).1, (updateHistories_fields st hk t).2.1]

theorem incrementCounters_fields (st : PunchCounterState) (p : PunchType) :
    (incrementCounters st p).last_punch_left = st.last_punch_left ∧
    (incrementCounters st p).last_punch_right = st.last_punch_right ∧
    (incrementCounters st p).punch_cooldown = st.punch_cooldown := by
  cases p <;> simp [incrementCounters]

-- case analysis on the state returned by the gate
theorem is_punch_motion_snd_cases (st : PunchCounterState) (v : ℚ) (d : Option (ℚ × ℚ))
    (hand : Hand) (t : ℚ) :
    (is_punch_motion st v d hand t).2 = st ∨
      ((is_punch_motion st v d hand t).1 = true ∧
        (is_punch_motion st v d hand t).2 = setLastPunchTime st hand t) := by
  unfold is_punch_motion
  split
  · exact Or.inl rfl
  · cases d with
    | none => exact Or.inl rfl
    | some dir =>
      simp only
      split
      · split
        · exact Or.inl rfl
        · exact Or.inr ⟨rfl, rfl⟩
      · exact Or.inl rfl

theorem setLastPunchTime_counters (st : PunchCounterState) (hand : Hand) (t : ℚ) :
    (setLastPunchTime st hand t).total_count = st.total_count ∧
    (setLastPunchTime st hand t).jab_count = st.jab_count ∧
    (setLastPunchTime st hand t).cross_count = st.cross_count ∧
    (setLastPunchTime st hand t).hook_count = st.hook_count ∧
    (setLastPunchTime st hand t).uppercut_count = st.uppercut_count ∧
    (setLastPunchTime st hand t).punch_cooldown = st.punch_cooldown ∧
    (setLastPunchTime st hand t).velocity_threshold = st.velocity_threshold := by
  cases hand <;> simp [setLastPunchTime]

theorem processHand_blocked (sqrt : ℚ → ℚ) (st : PunchCounterState) (hk : HandKeypoints)
    (hand : Hand) (t : ℚ) (hcool : t - lastPunchTime st hand < st.punch_cooldown) :
    processHand sqrt st hk hand t = (st, none) := by
  simp only [processHand]
  rw [is_punch_motion_blocked st _ _ hand t hcool]
  simp

theorem processHand_preserves (sqrt : ℚ → ℚ) (st : PunchCounterState) (hk : HandKeypoints)
    (hand other : Hand) (t : ℚ) (hne : other ≠ hand) :
    (processHand sqrt st hk hand t).1.punch_cooldown = st.punch_cooldown ∧
    lastPunchTime (processHand sqrt st hk hand t).1 other = lastPunchTime st other := by
  simp only [processHand]
  generalize calculate_velocity st.velocity_multiplier sqrt (posHist st hand) (tsHist st hand) = vd
  rcases is_punch_motion_snd_cases st vd.1 vd.2 hand t with h2 | ⟨hb, h2⟩
  · by_cases hb : (is_punch_motion st vd.1 vd.2 hand t).1 = true
    · simp only [hb, if_true, h2]
      exact ⟨(incrementCounters_fields _ _).2.2,
        by cases other <;> simp [lastPunchTime, (incrementCounters_fields _ _).1,
          (incrementCounters_fields _ _).2.1]⟩
    · simp only [Bool.not_eq_true] at hb
      simp only [hb, if_false, h2]
      exact ⟨rfl, rfl⟩
  · simp only [hb, if_true, h2]
    constructor
    · rw [(incrementCounters_fields _ _).2.2, (setLastPunchTime_counters st hand t).2.2.2.2.2.1]
    · have h1 : lastPunchTime (incrementCounters (setLastPunchTime st hand t)
          (classify_punch_type sqrt hk hand vd.1)) other
          = lastPunchTime (setLastPunchTime st hand t) other := by
        cases other <;> simp [lastPunchTime, (incrementCounters_fields _ _).1,
          (incrementCounters_fields _ _).2.1]
      rw [h1, lastPunchTime_set_other st t hne]

theorem detectPunchesHands_blocked (sqrt : ℚ → ℚ) (st : PunchCounterState)
    (kps : List KeypointRow) (t2 : ℚ) (hand : Hand) (tlp : ℚ)
    (hlp : lastPunchTime st hand = tlp)
    (hcool : t2 - tlp < st.punch_cooldown) :
    handEvt (detectPunchesHands sqrt st kps t2).2 hand = none ∧
    lastPunchTime (detectPunchesHands sqrt st kps t2).1 hand = tlp ∧
    (detectPunchesHands sqrt st kps t2).1.punch_cooldown = st.punch_cooldown := by
  simp only [detectPunchesHands]
  set hk := get_hand_keypoints kps with hhk
  set st0 := updatePositionHistories st hk t2 with hst0
  have h0lp : lastPunchTime st0 hand = tlp := by
    rw [hst0, updateHistories_lastPunchTime, hlp]
  have h0cd : st0.punch_cooldown = st.punch_cooldown := (updateHistories_fields st hk t2).2.2.1
  cases hand with
  | left =>
    have hbl : processHand sqrt st0 hk Hand.left t2 = (st0, none) :=
      processHand_blocked sqrt st0 hk Hand.left t2 (by rw [h0lp, h0cd]; exact hcool)
    rw [hbl]
    have hp := processHand_preserves sqrt st0 hk Hand.right Hand.left t2 (by simp)
    exact ⟨rfl, by rw [hp.2, h0lp], by rw [hp.1, h0cd]⟩
  | right =>
    have hp := processHand_preserves sqrt st0 hk Hand.left Hand.right t2 (by simp)
    have hbl : processHand sqrt (processHand sqrt st0 hk Hand.left t2).1 hk Hand.right t2 =
        ((processHand sqrt st0 hk Hand.left t2).1, none) :=
      processHand_blocked sqrt _ hk Hand.right t2 (by rw [hp.2, h0lp, hp.1, h0cd]; exact hcool)
    rw [hbl]
    exact ⟨rfl, by rw [hp.2, h0lp], by rw [hp.1, h0cd]⟩

theorem runFrames_blocked (sqrt : ℚ → ℚ) (hand : Hand) (tlp : ℚ) (frames : List Frame) :
    ∀ st : PunchCounterState, lastPunchTime st hand = tlp → st.punch_cooldown = 1/2 →
    (∀ f ∈ frames, f.2 - tlp < 1/2) →
    ∀ ev ∈ runFramesEvents sqrt st frames, handEvt ev hand = none := by
  induction frames with
  | nil => intro st _ _ _ ev hev; cases hev
  | cons f rest ih =>
    intro st hlp hcd hf ev hev
    obtain ⟨kps, t2⟩ := f
    have hb := detectPunchesHands_blocked sqrt st kps t2 hand tlp hlp
      (by rw [hcd]; exact hf (kps, t2) (List.mem_cons_self _ _))
    rw [runFramesEvents] at hev
    rcases List.mem_cons.mp hev with rfl | hev'
    · exact hb.1
    · exact ih (detectPunchesHands sqrt st kps t2).1 hb.2.1 (by rw [hb.2.2, hcd])
        (fun g hg => hf g (List.mem_cons_of_mem _ hg)) ev hev'

theorem sqrtClamp_nonneg (q : ℚ) : 0 ≤ sqrtClamp q := by
  unfold sqrtClamp
  split
  · exact le_refl 0
  · linarith [not_le.mp (by assumption)]

theorem c1_stage1 :
    detectPunchesHands sqrtClamp punchCounterInit c1Frame1 1 = (c1State1, (none, none)) := by
  have hk1 : get_hand_keypoints c1Frame1 =
      { left_wrist := none, right_wrist := some (0, 0, 1), left_elbow := none,
        right_elbow := none, left_shoulder := none, right_shoulder := none } := rfl
  have hupd : updatePositionHistories punchCounterInit
      { left_wrist := none, right_wrist := some (0, 0, 1), left_elbow := none,
        right_elbow := none, left_shoulder := none, right_shoulder := none } 1 = c1State1 := by
    norm_num [updatePositionHistories, dequeAppend, punchCounterInit, c1State1]
  have hleft : processHand sqrtClamp c1State1
      { left_wrist := none, right_wrist := some (0, 0, 1), left_elbow := none,
        right_elbow := none, left_shoulder := none, right_shoulder := none } Hand.left 1
      = (c1State1, none) := by
    norm_num [processHand, calculate_velocity, posHist, tsHist, c1State1, is_punch_motion]
  have hright : processHand sqrtClamp c1State1
      { left_wrist := none, right_wrist := some (0, 0, 1), left_elbow := none,
        right_elbow := none, left_shoulder := none, right_shoulder := none } Hand.right 1
      = (c1State1, none) := by
    norm_num [processHand, calculate_velocity, posHist, tsHist, c1State1, is_punch_motion]
  rw [detectPunchesHands]
  rw [hk1, hupd]
  rw [hleft, hright]

theorem c1_stage2 :
    detectPunchesHands sqrtClamp c1State1 c1Frame2 2 =
      (c1State2, (none, some (PunchType.cross, some (60, 0)))) := by
  have hk2 : get_hand_keypoints c1Frame2 = c1Keypoints2 := rfl
  have hupd : updatePositionHistories c1State1 c1Keypoints2 2 = c1State1b := by
    norm_num [updatePositionHistories, dequeAppend, c1State1, c1State1b, c1Keypoints2]
  have hleft : processHand sqrtClamp c1State1b c1Keypoints2 Hand.left 2 = (c1State1b, none) := by
    norm_num [processHand, calculate_velocity, posHist, tsHist, c1State1b, is_punch_motion]
  have hvel : calculate_velocity 1 sqrtClamp [some ((0 : ℚ), (0 : ℚ)), some (60, 0)] [1, 2]
      = (3600, some (1/60, 0)) := by
    norm_num [calculate_velocity, sqrtClamp]
  have hright : processHand sqrtClamp c1State1b c1Keypoints2 Hand.right 2
      = (c1State2, some (PunchType.cross, some (60, 0))) := by
    rw [processHand]
    have hph : posHist c1State1b Hand.right = [some ((0 : ℚ), (0 : ℚ)), some (60, 0)] := rfl
    have hth : tsHist c1State1b Hand.right = [1, 2] := rfl
    have hmul : c1State1b.velocity_multiplier = 1 := rfl
    rw [hph, hth, hmul, hvel]
    have hgate : is_punch_motion c1State1b 3600 (some (1/60, 0)) Hand.right 2
        = (true, c1State1c) := by
      norm_num [is_punch_motion, c1State1b, c1State1c, lastPunchTime, setLastPunchTime]
    rw [hgate]
    have hcls : classify_punch_type sqrtClamp c1Keypoints2 Hand.right 3600
        = PunchType.cross := rfl
    norm_num [hcls, wristCoords, posHist, incrementCounters, c1State1c, c1State2]
  rw [detectPunchesHands]
  rw [hk2, hupd]
  rw [hleft, hright]


/-! ## Claim theorems: punch counter -/

/-- C5: once the punch gate accepts a punch on a hand at time `t`, the
hand's last-punch timestamp equals `t` (it is stamped inside the gate,
before any classification runs), and over any subsequent frames whose times
stay within the 0.5-unit cooldown of `t`, no punch event is produced for
that hand, however the motion looks. -/
theorem punch_cooldown_enforced (sqrt : ℚ → ℚ) (st : PunchCounterState) (v : ℚ)
    (d : Option (ℚ × ℚ)) (hand : Hand) (t : ℚ) (st' : PunchCounterState)
    (hacc : is_punch_motion st v d hand t = (true, st'))
    (hcd : st.punch_cooldown = 1/2)
    (frames : List Frame) (hf : ∀ f ∈ frames, f.2 - t < 1/2) :
    lastPunchTime st' hand = t ∧
      ∀ ev ∈ runFramesEvents sqrt st' frames, handEvt ev hand = none := by
  have hst' : st' = setLastPunchTime st hand t := is_punch_motion_accept hacc
  subst hst'
  refine ⟨lastPunchTime_set_same st hand t, ?_⟩
  exact runFrames_blocked sqrt hand t frames _ (lastPunchTime_set_same st hand t)
    (by rw [cooldown_set]; exact hcd) hf

theorem punch_cooldown_enforced_witness :
    lastPunchTime (setLastPunchTime punchCounterInit Hand.right 1) Hand.right = 1 ∧
      ∀ ev ∈ runFramesEvents (fun q => q) (setLastPunchTime punchCounterInit Hand.right 1)
        [([], 5/4)], handEvt ev Hand.right = none :=
  punch_cooldown_enforced (fun q => q) punchCounterInit 60 (some (1, 0)) Hand.right 1
    (setLastPunchTime punchCounterInit Hand.right 1)
    (by norm_num [is_punch_motion, punchCounterInit, lastPunchTime, setLastPunchTime])
    (by norm_num [punchCounterInit])
    [([], 5/4)]
    (by
      intro f hf
      simp only [List.mem_singleton] at hf
      subst hf
      norm_num)


/-- C7: with fewer than two samples, an absent sample, or zero elapsed time
between the two most recent samples, `calculate_velocity` returns velocity
0 and an undefined direction (no division is reached), and a velocity of 0
with undefined direction can never pass the punch gate, so no punch can be
detected for that hand on that frame. -/
theorem calculate_velocity_guard (velocity_multiplier : ℚ) (sqrt : ℚ → ℚ)
    (positions : List (Option (ℚ × ℚ))) (timestamps : List ℚ)
    (h : positions.length < 2 ∨ timestamps.length < 2 ∨
      positions.getD (positions.length - 2) none = none ∨
      positions.getD (positions.length - 1) none = none ∨
      timestamps.getD (timestamps.length - 1) 0 - timestamps.getD (timestamps.length - 2) 0 = 0) :
    calculate_velocity velocity_multiplier sqrt positions timestamps = (0, none) ∧
      ∀ (st : PunchCounterState) (hand : Hand) (t : ℚ),
        is_punch_motion st 0 none hand t = (false, st) := by
  constructor
  · unfold calculate_velocity
    by_cases hlen : positions.length < 2 ∨ timestamps.length < 2
    · rw [if_pos hlen]
    · rw [if_neg hlen]
      rcases h with h | h | h | h | h
      · exact absurd (Or.inl h) hlen
      · exact absurd (Or.inr h) hlen
      · rw [h]
      · rw [h]
        cases positions.getD (positions.length - 2) none <;> rfl
      · cases hp1 : positions.getD (positions.length - 2) none with
        | none => rfl
        | some p1 =>
          cases hp2 : positions.getD (positions.length - 1) none with
          | none => rfl
          | some p2 =>
            simp only
            rw [if_pos h]
  · intro st hand t
    unfold is_punch_motion
    split
    · rfl
    · rfl

theorem calculate_velocity_guard_witness :
    calculate_velocity 1 (fun q => q) [some (1, 1), some (1, 1)] [3, 3] = (0, none) ∧
      ∀ (st : PunchCounterState) (hand : Hand) (t : ℚ),
        is_punch_motion st 0 none hand t = (false, st) :=
  calculate_velocity_guard 1 (fun q => q) [some (1, 1), some (1, 1)] [3, 3]
    (Or.inr (Or.inr (Or.inr (Or.inr (by norm_num)))))


/-- C8: starting from the initial threshold 50, after any sequence of
`increase_sensitivity` / `decrease_sensitivity` calls (with nonnegative
steps, as at every call site where the step is the default 5), the velocity
threshold stays at or above the positive floor 5, so it never reaches zero
or goes negative. -/
theorem runSens_ge (ops : List SensitivityOp) :
    ∀ st : PunchCounterState, 5 ≤ st.velocity_threshold → (∀ op ∈ ops, 0 ≤ op.stepOf) →
      5 ≤ (runSensitivityOps st ops).velocity_threshold := by
  induction ops with
  | nil => intro st h _; exact h
  | cons op rest ih =>
    intro st h hops
    rw [runSensitivityOps, List.foldl_cons]
    refine ih (applySensitivityOp st op) ?_ fun o ho => hops o (List.mem_cons_of_mem _ ho)
    cases op with
    | inc s => exact le_max_left 5 _
    | dec s =>
      have hs : (0:ℚ) ≤ s := hops (SensitivityOp.dec s) (List.mem_cons_self _ _)
      simp only [applySensitivityOp, decrease_sensitivity]
      linarith

theorem sensitivity_floor (ops : List SensitivityOp)
    (h : ∀ op ∈ ops, 0 ≤ op.stepOf) :
    0 < (runSensitivityOps punchCounterInit ops).velocity_threshold := by
  have h5 := runSens_ge ops punchCounterInit (by norm_num [punchCounterInit]) h
  linarith

theorem sensitivity_floor_witness :
    0 < (runSensitivityOps punchCounterInit
      [SensitivityOp.inc 5, SensitivityOp.inc 5, SensitivityOp.inc 5, SensitivityOp.inc 5,
        SensitivityOp.inc 5, SensitivityOp.inc 5, SensitivityOp.inc 5, SensitivityOp.inc 5,
        SensitivityOp.inc 5, SensitivityOp.inc 5, SensitivityOp.dec 5]).velocity_threshold :=
  sensitivity_floor _ (by
    intro op hop
    simp only [List.mem_cons, List.not_mem_nil, or_false] at hop
    rcases hop with rfl | rfl | rfl | rfl | rfl | rfl | rfl | rfl | rfl | rfl | rfl <;>
      norm_num [SensitivityOp.stepOf])


/-- C10: in every state reachable from a fresh `PunchCounter` by any
sequence of `detect_punches` and `reset_counter` calls, the total counter
equals the sum of the four per-type counters. -/
theorem incrementCounters_invariant (st : PunchCounterState) (p : PunchType)
    (h : counterInvariant st) : counterInvariant (incrementCounters st p) := by
  unfold counterInvariant at h
  cases p <;> simp [incrementCounters, counterInvariant] <;> omega

theorem updateHistories_counters (st : PunchCounterState) (hk : HandKeypoints) (t : ℚ) :
    (updatePositionHistories st hk t).total_count = st.total_count ∧
    (updatePositionHistories st hk t).jab_count = st.jab_count ∧
    (updatePositionHistories st hk t).cross_count = st.cross_count ∧
    (updatePositionHistories st hk t).hook_count = st.hook_count ∧
    (updatePositionHistories st hk t).uppercut_count = st.uppercut_count := by
  unfold updatePositionHistories
  cases hk.left_wrist <;> cases hk.right_wrist <;> simp

theorem counterInvariant_congr {st st' : PunchCounterState}
    (h1 : st'.total_count = st.total_count) (h2 : st'.jab_count = st.jab_count)
    (h3 : st'.cross_count = st.cross_count) (h4 : st'.hook_count = st.hook_count)
    (h5 : st'.uppercut_count = st.uppercut_count) (h : counterInvariant st) :
    counterInvariant st' := by
  unfold counterInvariant at *
  rw [h1, h2, h3, h4, h5, h]

theorem processHand_invariant (sqrt : ℚ → ℚ) (st : PunchCounterState) (hk : HandKeypoints)
    (hand : Hand) (t : ℚ) (h : counterInvariant st) :
    counterInvariant (processHand sqrt st hk hand t).1 := by
  simp only [processHand]
  generalize calculate_velocity st.velocity_multiplier sqrt (posHist st hand) (tsHist st hand) = vd
  have hsnd : counterInvariant (is_punch_motion st vd.1 vd.2 hand t).2 := by
    rcases is_punch_motion_snd_cases st vd.1 vd.2 hand t with h2 | ⟨_, h2⟩
    · rwa [h2]
    · rw [h2]
      have hc := setLastPunchTime_counters st hand t
      exact counterInvariant_congr hc.1 hc.2.1 hc.2.2.1 hc.2.2.2.1 hc.2.2.2.2.1 h
  by_cases hb : (is_punch_motion st vd.1 vd.2 hand t).1 = true
  · simp only [hb, if_true]
    exact incrementCounters_invariant _ _ hsnd
  · simp only [Bool.not_eq_true] at hb
    simp only [hb, if_false]
    exact hsnd

theorem detect_punches_invariant (sqrt : ℚ → ℚ) (st : PunchCounterState)
    (kps : List KeypointRow) (t : ℚ) (h : counterInvariant st) :
    counterInvariant (detect_punches sqrt st kps t).1 := by
  simp only [detect_punches, detectPunchesHands]
  have h0 : counterInvariant (updatePositionHistories st (get_hand_keypoints kps) t) := by
    have hc := updateHistories_counters st (get_hand_keypoints kps) t
    exact counterInvariant_congr hc.1 hc.2.1 hc.2.2.1 hc.2.2.2.1 hc.2.2.2.2 h
  exact processHand_invariant sqrt _ _ Hand.right t (processHand_invariant sqrt _ _ Hand.left t h0)

theorem counters_coherent (sqrt : ℚ → ℚ) (ops : List CounterOp) :
    counterInvariant (runCounterOps sqrt punchCounterInit ops) := by
  have haux : ∀ ops2 (st : PunchCounterState), counterInvariant st →
      counterInvariant (runCounterOps sqrt st ops2) := by
    intro ops2
    induction ops2 with
    | nil => intro st h; exact h
    | cons op rest ih =>
      intro st h
      rw [runCounterOps, List.foldl_cons]
      refine ih _ ?_
      cases op with
      | detect kps t => exact detect_punches_invariant sqrt st kps t h
      | reset => simp [applyCounterOp, reset_counter, counterInvariant]
  exact haux ops punchCounterInit (by simp [punchCounterInit, counterInvariant])


/-- C6: `classify_punch_type` is total and deterministic.  With any of the
four required keypoints absent it returns the fixed per-hand fallback
(right: cross, left: jab); with all four present it returns exactly the
spec's ordered decision tree `specClassification` (hence exactly one of
jab, cross, hook, uppercut), for every square-root routine that is
nonnegative like the real one. -/
theorem classify_punch_type_total (sqrt : ℚ → ℚ) (hsqrt : ∀ q, 0 ≤ sqrt q)
    (kp : HandKeypoints) (hand : Hand) (velocity : ℚ) :
    ((wristOf kp hand = none ∨ elbowOf kp hand = none ∨ shoulderOf kp hand = none ∨
        oppositeShoulderOf kp hand = none) →
      classify_punch_type sqrt kp hand velocity =
        (match hand with
          | Hand.right => PunchType.cross
          | Hand.left => PunchType.jab)) ∧
    (∀ w e s o, wristOf kp hand = some w → elbowOf kp hand = some e →
      shoulderOf kp hand = some s → oppositeShoulderOf kp hand = some o →
      classify_punch_type sqrt kp hand velocity = specClassification sqrt hand w e s) := by
  constructor
  · intro hmiss
    unfold classify_punch_type
    cases hw : wristOf kp hand <;> cases he : elbowOf kp hand <;>
      cases hs : shoulderOf kp hand <;> cases ho : oppositeShoulderOf kp hand <;>
      first
        | rfl
        | (exfalso; rcases hmiss with h | h | h | h <;> simp_all)
  · intro w e s o hw he hs ho
    unfold classify_punch_type specClassification
    rw [hw, he, hs, ho]
    simp only
    have hratio :
        (if sqrt ((e.1 - s.1)^2 + (e.2.1 - s.2.1)^2) + sqrt ((w.1 - e.1)^2 + (w.2.1 - e.2.1)^2)
            > 0
          then sqrt ((w.1 - s.1)^2 + (w.2.1 - s.2.1)^2) /
            (sqrt ((e.1 - s.1)^2 + (e.2.1 - s.2.1)^2) + sqrt ((w.1 - e.1)^2 + (w.2.1 - e.2.1)^2))
          else 0) =
        (if sqrt ((e.1 - s.1)^2 + (e.2.1 - s.2.1)^2) + sqrt ((w.1 - e.1)^2 + (w.2.1 - e.2.1)^2)
            = 0
          then 0
          else sqrt ((w.1 - s.1)^2 + (w.2.1 - s.2.1)^2) /
            (sqrt ((e.1 - s.1)^2 + (e.2.1 - s.2.1)^2)
              + sqrt ((w.1 - e.1)^2 + (w.2.1 - e.2.1)^2))) := by
      by_cases hz : sqrt ((e.1 - s.1)^2 + (e.2.1 - s.2.1)^2)
          + sqrt ((w.1 - e.1)^2 + (w.2.1 - e.2.1)^2) = 0
      · rw [if_neg (by rw [hz]; exact lt_irrefl 0), if_pos hz]
      · have hpos : 0 < sqrt ((e.1 - s.1)^2 + (e.2.1 - s.2.1)^2)
            + sqrt ((w.1 - e.1)^2 + (w.2.1 - e.2.1)^2) :=
          lt_of_le_of_ne (add_nonneg (hsqrt _) (hsqrt _)) (Ne.symm hz)
        rw [if_pos hpos, if_neg hz]
    rw [hratio]


theorem classify_punch_type_total_witness :
    classify_punch_type sqrtClamp c6Present Hand.right 60 = PunchType.cross ∧
      classify_punch_type sqrtClamp c6Missing Hand.left 60 = PunchType.jab := by
  constructor
  · have h := (classify_punch_type_total sqrtClamp sqrtClamp_nonneg c6Present Hand.right 60).2
      (11/10, 0, 1) (1/2, 0, 1) (0, 0, 1) (-1/5, 0, 1) rfl rfl rfl rfl
    rw [h]
    norm_num [specClassification, sqrtClamp]
  · have h := (classify_punch_type_total sqrtClamp sqrtClamp_nonneg c6Missing Hand.left 60).1
      (Or.inl rfl)
    rw [h]


/-- C1: evaluation of `detect_punches` as implemented, at a concrete frame
pair in which the right hand performs a qualifying punch motion.  The
counters are incremented and exactly one event per hand is returned, but
the event is a (type, coordinates) pair with no timestamp, and no punch
event history exists anywhere in `PunchCounterState`: the appended
(type, coordinates, time) triple and the shared Punch Event History that
`main.py` reads (`punch_counter.punch_event_history`) are absent from
`punch_counter.py`. -/
theorem detect_punches_event_shape :
    (detect_punches sqrtClamp
        (detect_punches sqrtClamp punchCounterInit c1Frame1 1).1 c1Frame2 2).2
      = [(PunchType.cross, some (60, 0))] ∧
    (detect_punches sqrtClamp
        (detect_punches sqrtClamp punchCounterInit c1Frame1 1).1 c1Frame2 2).1.total_count = 1 ∧
    (detect_punches sqrtClamp
        (detect_punches sqrtClamp punchCounterInit c1Frame1 1).1 c1Frame2 2).1.cross_count = 1 := by
  have h1 : (detect_punches sqrtClamp punchCounterInit c1Frame1 1).1 = c1State1 := by
    rw [detect_punches, c1_stage1]
  rw [h1, detect_punches, c1_stage2]
  refine ⟨rfl, rfl, rfl⟩
